import Mathlib

/-!
Shallow embedding of the rule-based natural-language-to-Python code
generator: the full variant (`generate_python_code` in
nlp_to_pythoncode.py) and the minimal variant (nl_to_python.py).

Strings are modelled as `String` / `List Char` over the ASCII fragment:
`str.lower`, `str.strip`, `str.isdigit`, the regex classes `\d` and `\w`,
and the regex `.` (any character except a newline) follow Python's
semantics on ASCII text.  `re.fullmatch` of each concrete pattern of the
rule table is translated to a whole-string matcher; `re.search` (used by
the minimal variant) is translated to a leftmost-position scan.
Synthesis that can raise in Python (the dictionary rule, whose pair
unpacking raises ValueError when a pair does not split into exactly a key
and a value, and the arithmetic rule's symbol-table lookup, which would
raise KeyError for a keyword outside the table) is modelled with
`Except`: `Except.error` is a raised exception, `Except.ok` a normal
return value.
-/

namespace NlpGen

/-- ASCII model of Python `str.lower`. -/
def pyLower (c : Char) : Char :=
  if 'A' ≤ c ∧ c ≤ 'Z' then Char.ofNat (c.toNat + 32) else c

/-- ASCII whitespace stripped by Python `str.strip()`:
space, tab, newline, carriage return, vertical tab, form feed. -/
def isPySpace (c : Char) : Bool :=
  c == ' ' || c == '\t' || c == '\n' || c == '\r' ||
    c == Char.ofNat 11 || c == Char.ofNat 12

/-- Python `str.strip()` on a character list. -/
def pyStrip (l : List Char) : List Char :=
  ((l.dropWhile isPySpace).reverse.dropWhile isPySpace).reverse

/-- The normalization the full variant performs first:
`instruction.lower().strip()`. -/
def normalize (l : List Char) : List Char :=
  pyStrip (l.map pyLower)

/-- Consume a literal pattern fragment from the front of the input;
return the remaining input on success. -/
def dropLit : List Char → List Char → Option (List Char)
  | [], s => some s
  | _ :: _, [] => none
  | p :: ps, c :: cs => if c = p then dropLit ps cs else none

/-- Regex fragment `(\d+)`: a nonempty maximal digit run (capture, rest).
The runs in the table's patterns are always followed by a non-digit
literal or the end of the pattern, so the greedy maximal run is the
unique possible match. -/
def parseDigits1 (s : List Char) : Option (List Char × List Char) :=
  let d := s.takeWhile Char.isDigit
  if d = [] then none else some (d, s.dropWhile Char.isDigit)

/-- ASCII model of the regex class `\w`. -/
def isWordChar (c : Char) : Bool := c.isAlphanum || c == '_'

/-- Regex fragment `(\w+)`: a nonempty maximal word-character run. -/
def parseWord1 (s : List Char) : Option (List Char × List Char) :=
  let w := s.takeWhile isWordChar
  if w = [] then none else some (w, s.dropWhile isWordChar)

/-- `re.fullmatch` of a pattern of the shape `LIT(.+)`: the whole input
is the literal followed by a nonempty capture that contains no newline
(`.` does not match a newline). -/
def matchLitDotPlus (lit s : List Char) : Option (List Char) :=
  (dropLit lit s).bind fun rest =>
    if rest = [] then none else if '\n' ∈ rest then none else some rest

/-- Pattern 1 of the full variant: `print (.+)`. -/
def matchPrintAny (s : List Char) : Option (List Char) :=
  matchLitDotPlus "print ".data s

/-- Pattern 2 of the full variant:
`print numbers from (\d+) to (\d+)`, whole string. -/
def matchRange (s : List Char) : Option (List Char × List Char) :=
  (dropLit "print numbers from ".data s).bind fun r1 =>
  (parseDigits1 r1).bind fun p1 =>
  (dropLit " to ".data p1.2).bind fun r3 =>
  (parseDigits1 r3).bind fun p2 =>
  if p2.2 = [] then some (p1.1, p2.1) else none

/-- One alternative of pattern 3: `OP (\d+) and (\d+)`, whole string. -/
def matchArithWith (w s : List Char) : Option (List Char × List Char) :=
  (dropLit (w ++ [' ']) s).bind fun r1 =>
  (parseDigits1 r1).bind fun p1 =>
  (dropLit " and ".data p1.2).bind fun r3 =>
  (parseDigits1 r3).bind fun p2 =>
  if p2.2 = [] then some (p1.1, p2.1) else none

/-- Pattern 3 of the full variant:
`(add|subtract|multiply|divide) (\d+) and (\d+)`, the captured keyword
returned as the first component, alternatives tried in declared order. -/
def matchArith (s : List Char) : Option (String × List Char × List Char) :=
  match matchArithWith "add".data s with
  | some p => some ("add", p.1, p.2)
  | none =>
    match matchArithWith "subtract".data s with
    | some p => some ("subtract", p.1, p.2)
    | none =>
      match matchArithWith "multiply".data s with
      | some p => some ("multiply", p.1, p.2)
      | none =>
        match matchArithWith "divide".data s with
        | some p => some ("divide", p.1, p.2)
        | none => none

/-- Pattern 4 of the full variant: `create list (.+)`. -/
def matchCreateList (s : List Char) : Option (List Char) :=
  matchLitDotPlus "create list ".data s

/-- Pattern 5 of the full variant: `append (.+) to list`.  A full match
forces the capture to be everything between `append ` and a final
` to list` (the overall length pins the greedy capture down), nonempty
and newline-free. -/
def matchAppend (s : List Char) : Option (List Char) :=
  (dropLit "append ".data s).bind fun rest =>
    if rest.length < 9 then none
    else
      if rest.drop (rest.length - 8) = " to list".data then
        if '\n' ∈ rest.take (rest.length - 8) then none
        else some (rest.take (rest.length - 8))
      else none

/-- Pattern 8 of the full variant: `square (\d+)`. -/
def matchSquare (s : List Char) : Option (List Char) :=
  (dropLit "square ".data s).bind fun r1 =>
  (parseDigits1 r1).bind fun p =>
  if p.2 = [] then some p.1 else none

/-- Pattern 9 of the full variant: `create string (.+)`. -/
def matchCreateString (s : List Char) : Option (List Char) :=
  matchLitDotPlus "create string ".data s

/-- Pattern 12 of the full variant: `create dictionary (.+)`. -/
def matchCreateDict (s : List Char) : Option (List Char) :=
  matchLitDotPlus "create dictionary ".data s

/-- Pattern 14 of the full variant:
`if (\w+) equals (\d+) then print (.+)`. -/
def matchIf (s : List Char) : Option (List Char × List Char × List Char) :=
  (dropLit "if ".data s).bind fun r1 =>
  (parseWord1 r1).bind fun pw =>
  (dropLit " equals ".data pw.2).bind fun r3 =>
  (parseDigits1 r3).bind fun pd =>
  (matchLitDotPlus " then print ".data pd.2).map fun msg => (pw.1, pd.1, msg)

/-- Pattern 16 of the full variant: `ask input (.+)`. -/
def matchAskInput (s : List Char) : Option (List Char) :=
  matchLitDotPlus "ask input ".data s

/-- Whether rule number `i` (0-based position in the `rules` list of the
full variant) fully matches the normalized instruction `s`. -/
def matchAt (i : Nat) (s : List Char) : Bool :=
  match i with
  | 0 => (matchPrintAny s).isSome
  | 1 => (matchRange s).isSome
  | 2 => (matchArith s).isSome
  | 3 => (matchCreateList s).isSome
  | 4 => (matchAppend s).isSome
  | 5 => decide (s = "sort list".data)
  | 6 => decide (s = "print list".data)
  | 7 => (matchSquare s).isSome
  | 8 => (matchCreateString s).isSome
  | 9 => decide (s = "uppercase string".data)
  | 10 => decide (s = "print string".data)
  | 11 => (matchCreateDict s).isSome
  | 12 => decide (s = "print dictionary".data)
  | 13 => (matchIf s).isSome
  | 14 => decide (s = "loop list".data)
  | 15 => (matchAskInput s).isSome
  | 16 => decide (s = "help".data) || decide (s = "show commands".data)
  | _ => false

/-- Positions of the 17 rules, in declared order. -/
def ruleIdxs : List Nat :=
  [0, 1, 2, 3, 4, 5, 6, 7, 8, 9, 10, 11, 12, 13, 14, 15, 16]

/-- First rule (by declared order) whose trigger fully matches `s`:
the matching loop `for pattern, action in rules: re.fullmatch ...`. -/
def selectedRule (s : List Char) : Option Nat :=
  ruleIdxs.find? fun i => matchAt i s

/-- Numeric value of a digit run: Python `int` applied to the capture. -/
def digitsToNat (l : List Char) : Nat :=
  l.foldl (fun n c => n * 10 + (c.toNat - 48)) 0

/-- ASCII model of Python `str.isdigit`: nonempty, all digits. -/
def pyIsDigitStr (l : List Char) : Bool :=
  !l.isEmpty && l.all Char.isDigit

/-- Python `str.split(sep)` for a one-character separator. -/
def splitOnChar (sep : Char) : List Char → List (List Char)
  | [] => [[]]
  | c :: cs =>
    match splitOnChar sep cs with
    | [] => [[]]
    | t :: ts => if c = sep then [] :: t :: ts else (c :: t) :: ts

/-- Element rendering of the `create list` rule: strip the token, keep it
verbatim when `isdigit`, otherwise wrap it in double quotes. -/
def renderListItem (v : List Char) : String :=
  let w := pyStrip v
  if pyIsDigitStr w then String.mk w else "\"" ++ String.mk w ++ "\""

/-- Pair rendering of the `create dictionary` rule: `pair.split(":")` must
unpack into exactly a key and a value, else Python raises ValueError
(modelled as `none`); the key is stripped and always quoted, the value is
stripped and quoted unless `isdigit`. -/
def renderPair (pair : List Char) : Option String :=
  match splitOnChar ':' pair with
  | [k, v] =>
    let kk := pyStrip k
    let vv := pyStrip v
    some ("\"" ++ String.mk kk ++ "\": " ++
      (if pyIsDigitStr vv then String.mk vv
       else "\"" ++ String.mk vv ++ "\""))
  | _ => none

/-- Collect the rendered pairs; the first `none` (raised ValueError)
aborts the whole synthesis. -/
def seqOpt : List (Option String) → Option (List String)
  | [] => some []
  | none :: _ => none
  | some a :: rest =>
    match seqOpt rest with
    | some l => some (a :: l)
    | none => none

/-- The apostrophe character, used by the sentinel text. -/
def apos : String := String.mk [Char.ofNat 39]

/-- The unrecognized-instruction sentinel returned when no rule matches:
`# I don't understand. Type 'help' for available commands.` -/
def sentinel : String :=
  "# I don" ++ apos ++ "t understand. Type " ++ apos ++ "help" ++ apos ++
    " for available commands."

/-- The fixed result for an empty normalized instruction. -/
def emptyMsg : String := "# Please enter an instruction"

/-- The ValueError raised inside the dictionary synthesis function when a
comma-separated pair does not split into exactly a key and a value. -/
def dictPairErr : String :=
  "ValueError: dictionary pair must split into exactly key and value"

/-- The KeyError a missing symbol-table entry would raise in the
arithmetic synthesis function. -/
def keyErr : String := "KeyError: unknown operation keyword"

/-- Impossible branch: a synthesis function invoked without a match. -/
def noMatchErr : String := "internal: synthesis invoked without a match"

/-- The symbol table of the arithmetic rule:
`{"add": "+", "subtract": "-", "multiply": "*", "divide": "/"}`. -/
def opSymbolTable (w : String) : Option String :=
  if w = "add" then some "+"
  else if w = "subtract" then some "-"
  else if w = "multiply" then some "*"
  else if w = "divide" then some "/"
  else none

/-- The static help catalog returned by the `help|show commands` rule. -/
def helpText : String :=
  "# Available commands:\n" ++
  "# print [text]  - Print any text\n" ++
  "# print numbers from X to Y - Print range of numbers\n" ++
  "# add/subtract/multiply/divide X and Y - Math operations\n" ++
  "# create list X,Y,Z - Create a list\n" ++
  "# append X to list - Add to list\n" ++
  "# sort list - Sort the list\n" ++
  "# print list - Print the list\n" ++
  "# square X - Square a number\n" ++
  "# create string X - Create a string\n" ++
  "# uppercase string - Convert to uppercase\n" ++
  "# print string - Print the string\n" ++
  "# create dictionary key:value - Create dictionary\n" ++
  "# print dictionary - Print dictionary\n" ++
  "# if X equals Y then print Z - Simple if statement\n" ++
  "# loop list - Loop through list\n" ++
  "# ask input [message] - Get user input\n" ++
  "# help - Show this message"

/-- Synthesis of rule 1: `'print("{}")'.format(m.group(1))`. -/
def synPrintAny (s : List Char) : Except String String :=
  match matchPrintAny s with
  | some rest => .ok ("print(\"" ++ String.mk rest ++ "\")")
  | none => .error noMatchErr

/-- Synthesis of rule 2: `int` both captures, add one to the end so the
last number is included. -/
def synRange (s : List Char) : Except String String :=
  match matchRange s with
  | some p =>
    .ok ("for i in range(" ++ toString (digitsToNat p.1) ++ ", " ++
      toString (digitsToNat p.2 + 1) ++ "):\n    print(i)")
  | none => .error noMatchErr

/-- Synthesis of rule 3: look the keyword up in the symbol table (a
missing key would raise KeyError) and print the infix expression. -/
def synArith (s : List Char) : Except String String :=
  match matchArith s with
  | some t =>
    match opSymbolTable t.1 with
    | some sym =>
      .ok ("print(" ++ String.mk t.2.1 ++ " " ++ sym ++ " " ++
        String.mk t.2.2 ++ ")")
    | none => .error keyErr
  | none => .error noMatchErr

/-- Synthesis of rule 4: comma-split, render each stripped token, join. -/
def synCreateList (s : List Char) : Except String String :=
  match matchCreateList s with
  | some rest =>
    .ok ("my_list = [" ++
      String.intercalate ", " ((splitOnChar ',' rest).map renderListItem)
      ++ "]")
  | none => .error noMatchErr

/-- Synthesis of rule 5: append, quoting unless the capture `isdigit`. -/
def synAppend (s : List Char) : Except String String :=
  match matchAppend s with
  | some x =>
    if pyIsDigitStr x then .ok ("my_list.append(" ++ String.mk x ++ ")")
    else .ok ("my_list.append(\"" ++ String.mk x ++ "\")")
  | none => .error noMatchErr

/-- Synthesis of rule 8: print the square of the captured digits. -/
def synSquare (s : List Char) : Except String String :=
  match matchSquare s with
  | some d => .ok ("print(" ++ String.mk d ++ " ** 2)")
  | none => .error noMatchErr

/-- Synthesis of rule 9: assign the quoted capture to `my_string`. -/
def synCreateString (s : List Char) : Except String String :=
  match matchCreateString s with
  | some rest => .ok ("my_string = \"" ++ String.mk rest ++ "\"")
  | none => .error noMatchErr

/-- Synthesis of rule 12: comma-split into pairs, unpack each pair at its
`:` (ValueError unless exactly key and value), render, join. -/
def synDict (s : List Char) : Except String String :=
  match matchCreateDict s with
  | some rest =>
    match seqOpt ((splitOnChar ',' rest).map renderPair) with
    | some items =>
      .ok ("my_dict = \x7b" ++ String.intercalate ", " items ++ "\x7d")
    | none => .error dictPairErr
  | none => .error noMatchErr

/-- Synthesis of rule 14: the one-line conditional print. -/
def synIf (s : List Char) : Except String String :=
  match matchIf s with
  | some t =>
    .ok ("if " ++ String.mk t.1 ++ " == " ++ String.mk t.2.1 ++
      ": print(\"" ++ String.mk t.2.2 ++ "\")")
  | none => .error noMatchErr

/-- Synthesis of rule 16: prompt the user with the captured message. -/
def synAskInput (s : List Char) : Except String String :=
  match matchAskInput s with
  | some rest => .ok ("user_input = input(\"" ++ String.mk rest ++ "\")")
  | none => .error noMatchErr

/-- Transformation function of rule `i` applied to the normalized
instruction `s` (re-running the rule's matcher to obtain the captures,
exactly the groups `re.fullmatch` would bind). -/
def applyRuleIdx (i : Nat) (s : List Char) : Except String String :=
  match i with
  | 0 => synPrintAny s
  | 1 => synRange s
  | 2 => synArith s
  | 3 => synCreateList s
  | 4 => synAppend s
  | 5 => .ok "my_list.sort()"
  | 6 => .ok "print(my_list)"
  | 7 => synSquare s
  | 8 => synCreateString s
  | 9 => .ok "my_string = my_string.upper()"
  | 10 => .ok "print(my_string)"
  | 11 => synDict s
  | 12 => .ok "print(my_dict)"
  | 13 => synIf s
  | 14 => .ok "for item in my_list:\n    print(item)"
  | 15 => synAskInput s
  | 16 => .ok helpText
  | _ => .error noMatchErr

/-- Engine of the full variant on an already normalized instruction:
empty check, then first-match rule dispatch, then the sentinel. -/
def genNorm (s : List Char) : Except String String :=
  if s = [] then .ok emptyMsg
  else
    match selectedRule s with
    | some i => applyRuleIdx i s
    | none => .ok sentinel

/-- The full variant's `generate_python_code` (nlp_to_pythoncode.py). -/
def generate_python_code (instruction : String) : Except String String :=
  genNorm (normalize instruction.data)

/-- `re.search` attempt of `print numbers from (\d+) to (\d+)` anchored at
the current position (the minimal variant's rule 1): no end-of-string
requirement. -/
def rangeAtFront (s : List Char) : Option (List Char × List Char) :=
  (dropLit "print numbers from ".data s).bind fun r1 =>
  (parseDigits1 r1).bind fun p1 =>
  (dropLit " to ".data p1.2).bind fun r3 =>
  (parseDigits1 r3).map fun p2 => (p1.1, p2.1)

/-- Leftmost `re.search` of the minimal variant's range pattern. -/
def searchRange : List Char → Option (List Char × List Char)
  | [] => none
  | c :: t =>
    match rangeAtFront (c :: t) with
    | some p => some p
    | none => searchRange t

/-- `re.search` attempt of `print (.+)` anchored at the current position:
the greedy capture runs to the next newline or the end of input and must
be nonempty. -/
def printAtFront (s : List Char) : Option (List Char) :=
  (dropLit "print ".data s).bind fun rest =>
    let msg := rest.takeWhile fun c => decide (c ≠ '\n')
    if msg = [] then none else some msg

/-- Leftmost `re.search` of the minimal variant's print pattern. -/
def searchPrint : List Char → Option (List Char)
  | [] => none
  | c :: t =>
    match printAtFront (c :: t) with
    | some m => some m
    | none => searchPrint t

/-- Engine of the minimal variant (nl_to_python.py) on the lower-cased
instruction: range rule first via `re.search`, then the print rule, then
its own sentinel.  The range start is emitted verbatim, the end via
`int(end)+1`. -/
def nlNorm (s : List Char) : String :=
  match searchRange s with
  | some p =>
    "for i in range(" ++ String.mk p.1 ++ ", " ++
      toString (digitsToNat p.2 + 1) ++ "):\n    print(i)"
  | none =>
    match searchPrint s with
    | some msg => "print(\"" ++ String.mk msg ++ "\")"
    | none => "# Instruction not recognized"

/-- The minimal variant's `generate_python_code` (nl_to_python.py): it
lower-cases but does not strip. -/
def nl_generate_python_code (instruction : String) : String :=
  nlNorm (instruction.data.map pyLower)

/-! Helper lemmas about the embedding. -/

theorem dropLit_some : ∀ {p s r : List Char}, dropLit p s = some r → s = p ++ r
  | [], s, r, h => by
    simp only [dropLit] at h
    simp [← Option.some.inj h]
  | a :: p, [], r, h => by
    simp only [dropLit] at h
    exact absurd h (by simp)
  | a :: p, c :: cs, r, h => by
    simp only [dropLit] at h
    by_cases hc : c = a
    · rw [if_pos hc] at h
      subst hc
      simp [dropLit_some h]
    · rw [if_neg hc] at h
      exact absurd h (by simp)

theorem dropLit_self_append : ∀ (p r : List Char), dropLit p (p ++ r) = some r
  | [], r => rfl
  | a :: p, r => by simp [dropLit, dropLit_self_append p r]

theorem parseDigits1_some {s d r : List Char} (h : parseDigits1 s = some (d, r)) :
    s = d ++ r ∧ d ≠ [] ∧ ∀ c ∈ d, Char.isDigit c = true := by
  unfold parseDigits1 at h
  by_cases hnil : s.takeWhile Char.isDigit = []
  · rw [if_pos hnil] at h
    exact absurd h (by simp)
  · rw [if_neg hnil] at h
    have h' := Option.some.inj h
    rw [Prod.mk.injEq] at h'
    obtain ⟨hd, hr⟩ := h'
    subst hd; subst hr
    exact ⟨(List.takeWhile_append_dropWhile Char.isDigit s).symm, hnil,
      fun c hc => List.mem_takeWhile_imp hc⟩

theorem matchLitDotPlus_self {lit rest : List Char} (hne : rest ≠ [])
    (hnl : '\n' ∉ rest) : matchLitDotPlus lit (lit ++ rest) = some rest := by
  unfold matchLitDotPlus
  rw [dropLit_self_append]
  simp [hne, hnl]

theorem takeWhile_no_newline {l : List Char} (h : '\n' ∉ l) :
    (l.takeWhile fun c => decide (c ≠ '\n')) = l := by
  induction l with
  | nil => rfl
  | cons c t ih =>
    have hc : c ≠ '\n' := fun hh => h (hh ▸ List.mem_cons_self c t)
    have ht : '\n' ∉ t := fun hh => h (List.mem_cons_of_mem c hh)
    simp [List.takeWhile, hc, ih ht]
    intro x hx hh
    exact ht (hh ▸ hx)

theorem seqOpt_none {f : List Char → Option String} :
    ∀ {l : List Char} {ls : List (List Char)}, l ∈ ls → f l = none →
      seqOpt (ls.map f) = none := by
  intro l ls
  induction ls with
  | nil => intro h; exact absurd h (List.not_mem_nil l)
  | cons b t ih =>
    intro hmem hfl
    rcases List.mem_cons.mp hmem with hb | ht
    · subst hb
      simp only [List.map_cons, hfl, seqOpt]
    · simp only [List.map_cons]
      cases hfb : f b with
      | none => simp [seqOpt]
      | some v => simp [seqOpt, ih ht hfl]

theorem renderPair_malformed {pair : List Char}
    (h : (splitOnChar ':' pair).length ≠ 2) : renderPair pair = none := by
  unfold renderPair
  rcases hsp : splitOnChar ':' pair with _ | ⟨a, _ | ⟨b, _ | ⟨c, t⟩⟩⟩
  · rfl
  · rfl
  · rw [hsp] at h
    exact absurd rfl h
  · rfl

theorem selectedRule_of_first {s : List Char} (h : matchAt 0 s = true) :
    selectedRule s = some 0 := by
  unfold selectedRule ruleIdxs
  simp [List.find?, h]

theorem genNorm_sel {t : List Char} {i : Nat} (hne : t ≠ [])
    (hsel : selectedRule t = some i) : genNorm t = applyRuleIdx i t := by
  unfold genNorm
  rw [if_neg hne, hsel]

theorem genNorm_print_case {t rest : List Char} (ht : t = "print ".data ++ rest)
    (hne : rest ≠ []) (hnl : '\n' ∉ rest) :
    genNorm t = .ok ("print(\"" ++ String.mk rest ++ "\")") := by
  have hm : matchPrintAny t = some rest := by
    rw [ht]; exact matchLitDotPlus_self hne hnl
  have h0 : matchAt 0 t = true := by
    simp [matchAt, hm]
  have hsel := selectedRule_of_first h0
  have hnil : t ≠ [] := by rw [ht]; simp
  rw [genNorm_sel hnil hsel]
  show synPrintAny t = _
  unfold synPrintAny
  rw [hm]

instance : DecidableEq (Except String String) := fun a b =>
  match a, b with
  | .error x, .error y =>
    if h : x = y then .isTrue (by rw [h])
    else .isFalse (fun hh => h (Except.error.inj hh))
  | .error _, .ok _ => .isFalse Except.noConfusion
  | .ok _, .error _ => .isFalse Except.noConfusion
  | .ok x, .ok y =>
    if h : x = y then .isTrue (by rw [h])
    else .isFalse (fun hh => h (Except.ok.inj hh))

theorem matchRange_shape {s d1 d2 : List Char} (h : matchRange s = some (d1, d2)) :
    s = "print ".data ++ ("numbers from ".data ++ (d1 ++ (" to ".data ++ d2))) ∧
    (∀ c ∈ d1, Char.isDigit c = true) ∧ (∀ c ∈ d2, Char.isDigit c = true) := by
  unfold matchRange at h
  rcases Option.bind_eq_some.mp h with ⟨r1, hdrop, h⟩
  rcases Option.bind_eq_some.mp h with ⟨⟨d1x, r2⟩, hp1, h⟩
  dsimp only at h
  rcases Option.bind_eq_some.mp h with ⟨r3, hdrop2, h⟩
  rcases Option.bind_eq_some.mp h with ⟨⟨d2x, r4⟩, hp2, h⟩
  dsimp only at h
  by_cases h4 : r4 = []
  · rw [if_pos h4] at h
    have h' := Option.some.inj h
    rw [Prod.mk.injEq] at h'
    obtain ⟨e1, e2⟩ := h'
    subst e1; subst e2; subst h4
    obtain ⟨hr1, -, hdig1⟩ := parseDigits1_some hp1
    obtain ⟨hr3, -, hdig2⟩ := parseDigits1_some hp2
    have hs := dropLit_some hdrop
    have hr2 := dropLit_some hdrop2
    have hlit : ("print numbers from ".data : List Char) =
        "print ".data ++ "numbers from ".data := by decide
    refine ⟨?_, hdig1, hdig2⟩
    rw [hs, hr1, hr2, hr3, hlit]
    simp
  · rw [if_neg h4] at h
    exact absurd h (by simp)

theorem matchAt1_to_0 {s : List Char} (h : matchAt 1 s = true) :
    matchAt 0 s = true := by
  simp only [matchAt, Option.isSome_iff_exists] at h ⊢
  obtain ⟨⟨d1, d2⟩, hr⟩ := h
  obtain ⟨hs, hdig1, hdig2⟩ := matchRange_shape hr
  refine ⟨"numbers from ".data ++ (d1 ++ (" to ".data ++ d2)), ?_⟩
  rw [hs]
  apply matchLitDotPlus_self
  · simp
  · intro hmem
    rcases List.mem_append.mp hmem with h1 | h1
    · exact absurd h1 (by decide)
    · rcases List.mem_append.mp h1 with h2 | h2
      · exact absurd (hdig1 '\n' h2) (by decide)
      · rcases List.mem_append.mp h2 with h3 | h3
        · exact absurd h3 (by decide)
        · exact absurd (hdig2 '\n' h3) (by decide)

theorem matchAt6_to_0 {s : List Char} (h : matchAt 6 s = true) :
    matchAt 0 s = true := by
  simp only [matchAt, decide_eq_true_eq] at h
  subst h
  decide

theorem matchAt10_to_0 {s : List Char} (h : matchAt 10 s = true) :
    matchAt 0 s = true := by
  simp only [matchAt, decide_eq_true_eq] at h
  subst h
  decide

theorem matchAt12_to_0 {s : List Char} (h : matchAt 12 s = true) :
    matchAt 0 s = true := by
  simp only [matchAt, decide_eq_true_eq] at h
  subst h
  decide

theorem selectedRule_eq_11 {u : List Char}
    (h0 : matchAt 0 u = false) (h1 : matchAt 1 u = false)
    (h2 : matchAt 2 u = false) (h3 : matchAt 3 u = false)
    (h4 : matchAt 4 u = false) (h5 : matchAt 5 u = false)
    (h6 : matchAt 6 u = false) (h7 : matchAt 7 u = false)
    (h8 : matchAt 8 u = false) (h9 : matchAt 9 u = false)
    (h10 : matchAt 10 u = false) (h11 : matchAt 11 u = true) :
    selectedRule u = some 11 := by
  unfold selectedRule ruleIdxs
  simp [List.find?, h0, h1, h2, h3, h4, h5, h6, h7, h8, h9, h10, h11]

theorem selectedRule_ne_of_zero {s : List Char} {j : Nat}
    (hj : matchAt j s = true → matchAt 0 s = true) (hj0 : j ≠ 0) :
    selectedRule s ≠ some j := by
  intro h
  have hpj : matchAt j s = true := by
    unfold selectedRule at h
    simpa using List.find?_some h
  have h0 := selectedRule_of_first (hj hpj)
  exact hj0 (Option.some.inj (h.symm.trans h0))

/-! Claim theorems. -/

/-- C1: the claim says `generate_python_code "print list"` returns the
fixed snippet `print(my_list)`.  The code disagrees: the broad free-text
rule `print (.+)` is declared first in the rule list, so it wins and the
result is the quoted-string print `print("list")` — exactly what the
claim (and the program's own test case) rules out.  This theorem
evaluates the code at the failing input. -/
theorem thm_print_list_shadowed :
    generate_python_code "print list" = Except.ok "print(\"list\")" ∧
    generate_python_code "print list" ≠ Except.ok "print(my_list)" := by
  exact ⟨rfl, by decide⟩

/-- C2: the claim says `generate_python_code "print numbers from 1 to 5"`
returns a for-loop with synthesized upper bound 6.  The code disagrees:
the broad `print (.+)` rule is declared before the range rule, fully
matches this instruction, and produces the quoted-string print instead.
This theorem evaluates the code at the failing input. -/
theorem thm_inclusive_range_shadowed :
    generate_python_code "print numbers from 1 to 5" =
      Except.ok "print(\"numbers from 1 to 5\")" ∧
    generate_python_code "print numbers from 1 to 5" ≠
      Except.ok "for i in range(1, 6):\n    print(i)" := by
  exact ⟨rfl, by decide⟩

/-- C5: for every instruction whose normalization is nonempty and matched
by no rule's trigger, `generate_python_code` returns the sentinel marker
as a normal `Except.ok` value — never an exception (`Except.error`). -/
theorem thm_unrecognized_sentinel :
    ∀ (s : String), normalize s.data ≠ [] →
      selectedRule (normalize s.data) = none →
      generate_python_code s = Except.ok sentinel := by
  intro s h1 h2
  unfold generate_python_code genNorm
  rw [if_neg h1, h2]

/-- Witness for C5 at the spec's example `"do a backflip"`. -/
theorem thm_unrecognized_sentinel_witness :
    generate_python_code "do a backflip" = Except.ok sentinel :=
  thm_unrecognized_sentinel "do a backflip" (by decide) (by decide)

/-- C6: `generate_python_code "create list 1,2,apple"` renders each
comma-separated token independently — unquoted when it parses as an
integer, quoted otherwise — in original order with no deduplication. -/
theorem thm_create_list_inference :
    generate_python_code "create list 1,2,apple" =
      Except.ok "my_list = [1, 2, \"apple\"]" := rfl

/-- C8: matching is whole-string — a rule is selected only if its trigger
matches the entire normalized instruction (first conjunct), and an
instruction with surrounding extra text, such as `"please print hello"`,
matches no rule and yields the sentinel rather than partially matching
`print (.+)` (second conjunct). -/
theorem thm_fullmatch_selection :
    (∀ (s : List Char) (i : Nat), selectedRule s = some i →
      matchAt i s = true) ∧
    generate_python_code "please print hello" = Except.ok sentinel := by
  constructor
  · intro s i h
    unfold selectedRule at h
    simpa using List.find?_some h
  · rfl

/-- Witness for C8: the `sort list` rule (position 5) is selected for the
instruction `"sort list"`, and indeed its trigger matches the whole
instruction. -/
theorem thm_fullmatch_selection_witness :
    matchAt 5 "sort list".data = true :=
  thm_fullmatch_selection.1 "sort list".data 5 (by decide)

/-- C9: every input that is empty or whitespace-only after normalization
(lower-casing and stripping) short-circuits to the fixed
`# Please enter an instruction` result. -/
theorem thm_empty_shortcircuit :
    ∀ (s : String), normalize s.data = [] →
      generate_python_code s = Except.ok "# Please enter an instruction" := by
  intro s h
  unfold generate_python_code genNorm
  rw [if_pos h]
  rfl

/-- Witness for C9 at the whitespace-only input `"   "`. -/
theorem thm_empty_shortcircuit_witness :
    generate_python_code "   " = Except.ok "# Please enter an instruction" :=
  thm_empty_shortcircuit "   " (by decide)

/-- C3 counterexample: the claim quantifies over every instruction whose
normalization is `print ` followed by at least one character, but a
remainder containing a newline defeats it: `"print a\nb"` normalizes to
`print ` + `a\nb` (nonempty), yet regex `.` does not match a newline, so
no rule fully matches and the code returns the sentinel instead of
`print("a\nb")`. -/
theorem thm_print_rule_newline_cex :
    normalize ("print a\nb").data = "print ".data ++ "a\nb".data ∧
    "a\nb".data ≠ ([] : List Char) ∧
    generate_python_code "print a\nb" = Except.ok sentinel ∧
    sentinel ≠ "print(\"a\nb\")" := by
  refine ⟨by decide, by decide, rfl, by decide⟩

/-- C3 (amended): for every instruction whose normalization is `print `
followed by at least one character none of which is a newline, the full
variant returns exactly `print("<rest>")` with the remainder verbatim
(first conjunct); and the later rules at positions 1 (`print numbers
from X to Y`), 6 (`print list`), 10 (`print string`) and 12 (`print
dictionary`) are never selected for any input (second conjunct). -/
theorem thm_print_rule_dominates :
    (∀ (s : String) (rest : List Char),
        normalize s.data = "print ".data ++ rest → rest ≠ [] →
        '\n' ∉ rest →
        generate_python_code s =
          Except.ok ("print(\"" ++ String.mk rest ++ "\")")) ∧
    (∀ (s : List Char), selectedRule s ≠ some 1 ∧ selectedRule s ≠ some 6 ∧
        selectedRule s ≠ some 10 ∧ selectedRule s ≠ some 12) := by
  constructor
  · intro s rest h1 h2 h3
    unfold generate_python_code
    exact genNorm_print_case h1 h2 h3
  · intro s
    exact ⟨selectedRule_ne_of_zero matchAt1_to_0 (by decide),
      selectedRule_ne_of_zero matchAt6_to_0 (by decide),
      selectedRule_ne_of_zero matchAt10_to_0 (by decide),
      selectedRule_ne_of_zero matchAt12_to_0 (by decide)⟩

/-- Witness for C3 (amended) at `"print hello"`. -/
theorem thm_print_rule_dominates_witness :
    generate_python_code "print hello" = Except.ok "print(\"hello\")" := by
  have h := thm_print_rule_dominates.1 "print hello" "hello".data
    (by decide) (by decide) (by decide)
  exact h.trans (congrArg Except.ok (by decide))

/-- C7: whenever the normalized instruction matches the
`create dictionary (.+)` trigger and some comma-separated pair does not
split into exactly a key and a value (i.e. does not contain exactly one
`:`), the synthesis function fails loudly: the result is the distinct
`Except.error` value raised inside the synthesis (Python's ValueError
from the pair unpacking), not the unrecognized sentinel and not any
`Except.ok` code string. -/
theorem thm_dict_malformed_error :
    ∀ (s : String) (rest : List Char),
      normalize s.data = "create dictionary ".data ++ rest → rest ≠ [] →
      '\n' ∉ rest →
      (∃ pair ∈ splitOnChar ',' rest, (splitOnChar ':' pair).length ≠ 2) →
      generate_python_code s = Except.error dictPairErr := by
  intro s rest ht hne hnl hbad
  obtain ⟨pair, hmem, hlen⟩ := hbad
  unfold generate_python_code
  rw [ht]
  have hmd : matchCreateDict ("create dictionary ".data ++ rest) = some rest :=
    matchLitDotPlus_self hne hnl
  have h0 : matchAt 0 ("create dictionary ".data ++ rest) = false := rfl
  have h1 : matchAt 1 ("create dictionary ".data ++ rest) = false := rfl
  have h2 : matchAt 2 ("create dictionary ".data ++ rest) = false := rfl
  have h3 : matchAt 3 ("create dictionary ".data ++ rest) = false := rfl
  have h4 : matchAt 4 ("create dictionary ".data ++ rest) = false := rfl
  have h5 : matchAt 5 ("create dictionary ".data ++ rest) = false := rfl
  have h6 : matchAt 6 ("create dictionary ".data ++ rest) = false := rfl
  have h7 : matchAt 7 ("create dictionary ".data ++ rest) = false := rfl
  have h8 : matchAt 8 ("create dictionary ".data ++ rest) = false := rfl
  have h9 : matchAt 9 ("create dictionary ".data ++ rest) = false := rfl
  have h10 : matchAt 10 ("create dictionary ".data ++ rest) = false := rfl
  have h11 : matchAt 11 ("create dictionary ".data ++ rest) = true := by
    show (matchCreateDict ("create dictionary ".data ++ rest)).isSome = true
    rw [hmd]
    rfl
  have hsel : selectedRule ("create dictionary ".data ++ rest) = some 11 :=
    selectedRule_eq_11 h0 h1 h2 h3 h4 h5 h6 h7 h8 h9 h10 h11
  have hnil : ("create dictionary ".data ++ rest : List Char) ≠ [] :=
    fun h => absurd (List.append_eq_nil.mp h).1 (by decide)
  rw [genNorm_sel hnil hsel]
  show synDict ("create dictionary ".data ++ rest) = _
  unfold synDict
  rw [hmd]
  show (match seqOpt ((splitOnChar ',' rest).map renderPair) with
    | some items =>
      Except.ok ("my_dict = \x7b" ++ String.intercalate ", " items ++ "\x7d")
    | none => (Except.error dictPairErr : Except String String)) =
    Except.error dictPairErr
  rw [seqOpt_none hmem (renderPair_malformed hlen)]

/-- Witness for C7 at `"create dictionary name john"`, whose single pair
contains no `:` at all. -/
theorem thm_dict_malformed_error_witness :
    generate_python_code "create dictionary name john" =
      Except.error dictPairErr :=
  thm_dict_malformed_error "create dictionary name john" "name john".data
    (by decide) (by decide) (by decide)
    ⟨"name john".data, by decide, by decide⟩

theorem genNorm_arith {t : List Char} {op : String} {d1 d2 : List Char}
    {sym : String} (hm : matchArith t = some (op, d1, d2))
    (h0 : matchAt 0 t = false) (h1 : matchAt 1 t = false) (hne : t ≠ [])
    (hsym : opSymbolTable op = some sym) :
    genNorm t = Except.ok ("print(" ++ String.mk d1 ++ " " ++ sym ++ " " ++
      String.mk d2 ++ ")") := by
  have h2 : matchAt 2 t = true := by
    show (matchArith t).isSome = true
    rw [hm]
    rfl
  have hsel : selectedRule t = some 2 := by
    unfold selectedRule ruleIdxs
    simp [List.find?, h0, h1, h2]
  rw [genNorm_sel hne hsel]
  show synArith t = _
  unfold synArith
  rw [hm]
  show (match opSymbolTable op with
    | some sym =>
      (Except.ok ("print(" ++ String.mk d1 ++ " " ++ sym ++ " " ++
        String.mk d2 ++ ")") : Except String String)
    | none => .error keyErr) = _
  rw [hsym]

/-- C10: for every instruction whose normalization matches the
binary-arithmetic trigger `(add|subtract|multiply|divide) (\d+) and
(\d+)`, the captured keyword is in the closed vocabulary, so the symbol
table lookup succeeds (the KeyError branch is unreachable) and synthesis
totally emits the mapped operator between the two captured numbers. -/
theorem thm_arith_lookup_total :
    ∀ (s : String) (op : String) (d1 d2 : List Char),
      matchArith (normalize s.data) = some (op, d1, d2) →
      ∃ sym, opSymbolTable op = some sym ∧
        generate_python_code s = Except.ok ("print(" ++ String.mk d1 ++
          " " ++ sym ++ " " ++ String.mk d2 ++ ")") := by
  intro s op d1 d2 h
  have hcopy := h
  unfold generate_python_code
  unfold matchArith at h
  split at h
  · next p hw =>
    have e := Option.some.inj h
    rw [Prod.mk.injEq] at e
    obtain ⟨eop, e2⟩ := e
    rw [Prod.mk.injEq] at e2
    obtain ⟨e1, e2'⟩ := e2
    subst eop; subst e1; subst e2'
    unfold matchArithWith at hw
    rcases Option.bind_eq_some.mp hw with ⟨r1, hd, -⟩
    have hts := dropLit_some hd
    refine ⟨"+", rfl, ?_⟩
    exact genNorm_arith hcopy (by rw [hts]; rfl) (by rw [hts]; rfl)
      (by rw [hts]; simp) rfl
  · next hn1 =>
    split at h
    · next p hw =>
      have e := Option.some.inj h
      rw [Prod.mk.injEq] at e
      obtain ⟨eop, e2⟩ := e
      rw [Prod.mk.injEq] at e2
      obtain ⟨e1, e2'⟩ := e2
      subst eop; subst e1; subst e2'
      unfold matchArithWith at hw
      rcases Option.bind_eq_some.mp hw with ⟨r1, hd, -⟩
      have hts := dropLit_some hd
      refine ⟨"-", rfl, ?_⟩
      exact genNorm_arith hcopy (by rw [hts]; rfl) (by rw [hts]; rfl)
        (by rw [hts]; simp) rfl
    · next hn2 =>
      split at h
      · next p hw =>
        have e := Option.some.inj h
        rw [Prod.mk.injEq] at e
        obtain ⟨eop, e2⟩ := e
        rw [Prod.mk.injEq] at e2
        obtain ⟨e1, e2'⟩ := e2
        subst eop; subst e1; subst e2'
        unfold matchArithWith at hw
        rcases Option.bind_eq_some.mp hw with ⟨r1, hd, -⟩
        have hts := dropLit_some hd
        refine ⟨"*", rfl, ?_⟩
        exact genNorm_arith hcopy (by rw [hts]; rfl) (by rw [hts]; rfl)
          (by rw [hts]; simp) rfl
      · next hn3 =>
        split at h
        · next p hw =>
          have e := Option.some.inj h
          rw [Prod.mk.injEq] at e
          obtain ⟨eop, e2⟩ := e
          rw [Prod.mk.injEq] at e2
          obtain ⟨e1, e2'⟩ := e2
          subst eop; subst e1; subst e2'
          unfold matchArithWith at hw
          rcases Option.bind_eq_some.mp hw with ⟨r1, hd, -⟩
          have hts := dropLit_some hd
          refine ⟨"/", rfl, ?_⟩
          exact genNorm_arith hcopy (by rw [hts]; rfl) (by rw [hts]; rfl)
            (by rw [hts]; simp) rfl
        · next hn4 =>
          exact absurd h (by simp)

/-- Witness for C10 at `"add 2 and 3"`. -/
theorem thm_arith_lookup_total_witness :
    generate_python_code "add 2 and 3" = Except.ok "print(2 + 3)" := by
  obtain ⟨sym, hsym, hgen⟩ :=
    thm_arith_lookup_total "add 2 and 3" "add" ['2'] ['3'] (by decide)
  have hplus : opSymbolTable "add" = some "+" := rfl
  rw [hplus] at hsym
  have hs : sym = "+" := (Option.some.inj hsym).symm
  subst hs
  exact hgen.trans (congrArg Except.ok (by decide))

/-- C4 counterexample: the minimal version is not a behavioral subset of
the full version.  At `"please print hello"` the minimal version's
`re.search`-based print rule fires on a substring and returns the
non-sentinel `print("hello")`, while the full version's whole-string
matching rejects every rule and returns its sentinel — a different
output. -/
theorem thm_minimal_not_subset_cex :
    nl_generate_python_code "please print hello" = "print(\"hello\")" ∧
    nl_generate_python_code "please print hello" ≠
      "# Instruction not recognized" ∧
    generate_python_code "please print hello" = Except.ok sentinel ∧
    sentinel ≠ "print(\"hello\")" := by
  refine ⟨rfl, by decide, rfl, by decide⟩

/-- C4 (amended): the minimal version is not a strict behavioral subset
of the full version; agreement does hold on the common core: for every
instruction already in normalized form (lower-case, no surrounding
whitespace) of the shape `print ` + nonempty newline-free text, with no
substring matching `print numbers from (\d+) to (\d+)`, both versions
return the identical `print("<text>")` snippet. -/
theorem thm_minimal_full_agreement :
    ∀ (s : String) (rest : List Char),
      s.data = "print ".data ++ rest → rest ≠ [] → '\n' ∉ rest →
      s.data.map pyLower = s.data → pyStrip s.data = s.data →
      searchRange s.data = none →
      generate_python_code s = Except.ok (nl_generate_python_code s) := by
  intro s rest hdata hne hnl hlow hstrip hsr
  have hfront : printAtFront ('p' :: ("rint ".data ++ rest)) = some rest := by
    show printAtFront ("print ".data ++ rest) = some rest
    unfold printAtFront
    rw [dropLit_self_append]
    show (let msg := rest.takeWhile fun c => decide (c ≠ '\n')
      if msg = [] then none else some msg) = some rest
    rw [takeWhile_no_newline hnl]
    exact if_neg hne
  have hsp : searchPrint s.data = some rest := by
    rw [hdata,
      show ("print ".data ++ rest : List Char) =
        'p' :: ("rint ".data ++ rest) from rfl]
    simp only [searchPrint]
    rw [hfront]
  have hmin : nl_generate_python_code s =
      "print(\"" ++ String.mk rest ++ "\")" := by
    unfold nl_generate_python_code nlNorm
    rw [hlow, hsr, hsp]
  have hnorm : normalize s.data = s.data := by
    unfold normalize
    rw [hlow, hstrip]
  have hfull : generate_python_code s =
      Except.ok ("print(\"" ++ String.mk rest ++ "\")") := by
    unfold generate_python_code
    rw [hnorm]
    exact genNorm_print_case hdata hne hnl
  rw [hfull, hmin]

/-- Witness for C4 (amended) at `"print hi there"`. -/
theorem thm_minimal_full_agreement_witness :
    generate_python_code "print hi there" =
      Except.ok (nl_generate_python_code "print hi there") :=
  thm_minimal_full_agreement "print hi there" "hi there".data (by decide)
    (by decide) (by decide) (by decide) (by decide) (by decide)

end NlpGen
